import Mathlib

/-!
Verification of the gamification / spaced-repetition core of the
study-buddy backend, translated from `app/services/gamification_service.py`
and `app/routers/cards.py`.

Modelling conventions:
* Python floats over decimal constants are modelled as exact rationals (`ℚ`);
  Python's unbounded `int` as `ℤ` / `ℕ`.
* Calendar dates (`datetime.date`) are modelled as an integer day number;
  timestamps (`datetime`) as integer seconds since an epoch aligned to
  midnight, so the hour of day of a timestamp `t` is `t % 86400 / 3600`.
* A stored ISO string that `datetime.fromisoformat` rejects (for example the
  empty string) is modelled as `none`; a parseable one as `some t`.
* Python `int(x)` truncates toward zero; `Int.tdiv` below mirrors that.
-/

namespace StudyBuddy

/-- Python `int()` on a rational value: truncation toward zero, as used for
`total_xp = int(...)` in `calculate_xp`. -/
def int_trunc (q : ℚ) : ℤ := q.num.tdiv q.den

/-- The `DifficultyLevel` enum from `app/models/flashcard.py`. -/
inductive DifficultyLevel where
  | easy
  | medium
  | hard
deriving DecidableEq, Repr

/-- The `XPCalculation` value object from `app/models/achievement.py`. -/
structure XPCalculation where
  base_xp : ℤ
  difficulty_multiplier : ℚ
  accuracy_bonus : ℚ
  speed_bonus : ℚ
  streak_bonus : ℚ
  total_xp : ℤ
deriving DecidableEq, Repr

/-- `GamificationService.calculate_xp` (gamification_service.py, lines 22-77). -/
def calculate_xp (correct : Bool) (difficulty : DifficultyLevel)
    (time_taken : ℕ) (current_streak : ℕ) (accuracy_rate : ℚ) : XPCalculation :=
  if !correct then
    { base_xp := 0, difficulty_multiplier := 0, accuracy_bonus := 0,
      speed_bonus := 0, streak_bonus := 0, total_xp := 0 }
  else
    let base_xp : ℤ := 10
    let difficulty_mult : ℚ :=
      match difficulty with
      | .easy => 1.0
      | .medium => 1.5
      | .hard => 2.0
    let speed_bonus : ℚ :=
      if time_taken < 5 then 1.5
      else if time_taken < 10 then 1.2
      else if time_taken < 20 then 1.0
      else 0.8
    let accuracy_bonus : ℚ := min (accuracy_rate * 1.2) 1.5
    let streak_bonus : ℚ := min (1 + ((current_streak : ℚ) * 0.1)) 2.0
    let total_xp : ℤ :=
      int_trunc ((base_xp : ℚ) * difficulty_mult * speed_bonus * accuracy_bonus * streak_bonus)
    { base_xp := base_xp, difficulty_multiplier := difficulty_mult,
      accuracy_bonus := accuracy_bonus, speed_bonus := speed_bonus,
      streak_bonus := streak_bonus, total_xp := total_xp }

/-- `self.level_thresholds` (gamification_service.py, line 10). -/
def level_thresholds : List ℤ := [0, 100, 250, 500, 1000, 2000, 4000, 8000, 15000, 30000]

/-- The `for level, threshold in enumerate(...)` loop of `_calculate_level`:
returns `max 1 level` at the first threshold exceeding `xp_points`, and the
running index (the list length) when the loop finishes. -/
def level_scan (xp_points : ℤ) : ℕ → List ℤ → ℕ
  | level, [] => level
  | level, threshold :: rest =>
    if xp_points < threshold then max 1 level else level_scan xp_points (level + 1) rest

/-- `GamificationService._calculate_level` (gamification_service.py, lines 260-265). -/
def calculate_level (xp_points : ℤ) : ℕ := level_scan xp_points 0 level_thresholds

/-- The streak-update block of `update_user_progress`
(gamification_service.py, lines 102-116), as a function of the parsed
`last_study_date`, today's date, the current streak and correctness. -/
def update_streak (last_study_date : Option ℤ) (today : ℤ)
    (current_streak : ℕ) (correct : Bool) : ℕ :=
  match last_study_date with
  | some last_study =>
    if today = last_study then
      current_streak
    else if today = last_study + 1 then
      if correct then current_streak + 1 else 0
    else
      if correct then 1 else 0
  | none => if correct then 1 else 0

/-- The flashcard performance-score / times-reviewed update performed by
`submit_answer` (`app/routers/cards.py`, lines 183-189): returns the new
`performance_score` and the new `times_reviewed`. -/
def submit_answer_update (performance_score : ℚ) (times_reviewed : ℕ)
    (correct : Bool) : ℚ × ℕ :=
  let new_times := times_reviewed + 1
  let new_performance :=
    if correct then min (performance_score + 0.1) 1.0
    else max (performance_score - 0.1) 0.0
  (new_performance, new_times)

/-- The interval computation of `calculate_next_review_date`
(`app/routers/cards.py`, lines 265-277), in days. -/
def review_interval_days (performance_score : ℚ) (times_reviewed : ℕ) : ℚ :=
  let base_interval : ℚ := 1
  let performance_factor : ℚ := 1 + (performance_score * 2)
  let review_factor : ℚ := 1 + ((times_reviewed : ℚ) * 0.5)
  min (base_interval * performance_factor * review_factor) 30

/-- `calculate_next_review_date` (`app/routers/cards.py`, lines 265-279):
`datetime.utcnow() + timedelta(days=interval_days)`, with the current time
passed explicitly as a timestamp measured in days. -/
def calculate_next_review_date (now : ℚ) (performance_score : ℚ)
    (times_reviewed : ℕ) : ℚ :=
  now + review_interval_days performance_score times_reviewed

/-- Helper: Python `int()` truncation agrees with the floor on nonnegative
rationals. -/
theorem int_trunc_eq_floor (q : ℚ) (h : 0 ≤ q) : int_trunc q = ⌊q⌋ := by
  have hnum : 0 ≤ q.num := Rat.num_nonneg.mpr h
  obtain ⟨m, hm⟩ := Int.eq_ofNat_of_zero_le hnum
  rw [int_trunc, Rat.floor_def, hm]
  show (Int.ofNat m).tdiv (Int.ofNat q.den) = Int.ofNat m / Int.ofNat q.den
  have h2 : (Int.ofNat m : ℤ) / (Int.ofNat q.den) = Int.ofNat (m / q.den) :=
    (Int.natCast_div m q.den).symm
  rw [h2]
  rfl

/-- Helper: closed form of `calculate_level` over the concrete threshold
table. -/
theorem calculate_level_closed (xp : ℤ) :
    calculate_level xp =
      if xp < 0 then 1 else if xp < 100 then 1 else if xp < 250 then 2
      else if xp < 500 then 3 else if xp < 1000 then 4 else if xp < 2000 then 5
      else if xp < 4000 then 6 else if xp < 8000 then 7 else if xp < 15000 then 8
      else if xp < 30000 then 9 else 10 := by
  simp only [calculate_level, level_thresholds, level_scan]
  norm_num

/-- Helper: the scan never drops below `max 1 l` once the running index has
passed `l`. -/
theorem level_scan_lower (y : ℤ) : ∀ (ts : List ℤ) (l m : ℕ), l < m →
    max 1 l ≤ level_scan y m ts := by
  intro ts
  induction ts with
  | nil => intro l m h; simp only [level_scan]; omega
  | cons t rest ih =>
    intro l m h
    simp only [level_scan]
    split
    · omega
    · exact ih l (m + 1) (by omega)

/-- Helper: the threshold scan is monotone in the XP argument, for any
threshold list and start index. -/
theorem level_scan_mono (x y : ℤ) (hxy : x ≤ y) :
    ∀ (ts : List ℤ) (l : ℕ), level_scan x l ts ≤ level_scan y l ts := by
  intro ts
  induction ts with
  | nil => intro l; exact le_rfl
  | cons t rest ih =>
    intro l
    simp only [level_scan]
    by_cases hx : x < t
    · rw [if_pos hx]
      by_cases hy : y < t
      · rw [if_pos hy]
      · rw [if_neg hy]
        exact level_scan_lower y rest l (l + 1) (by omega)
    · rw [if_neg hx, if_neg (by omega : ¬ y < t)]
      exact ih (l + 1)

/-- Helper: the correct-answer branch of `calculate_xp` with all decimal
literals rewritten as fractions (the two forms denote the same rationals). -/
theorem calculate_xp_true_form (difficulty : DifficultyLevel)
    (time_taken current_streak : ℕ) (accuracy_rate : ℚ) :
    calculate_xp true difficulty time_taken current_streak accuracy_rate =
      { base_xp := 10,
        difficulty_multiplier :=
          (match difficulty with | .easy => 1 | .medium => 3/2 | .hard => 2),
        accuracy_bonus := min (accuracy_rate * (6/5)) (3/2),
        speed_bonus := (if time_taken < 5 then (3:ℚ)/2
                        else if time_taken < 10 then 6/5
                        else if time_taken < 20 then 1 else 4/5),
        streak_bonus := min (1 + (current_streak : ℚ) * (1/10)) 2,
        total_xp := int_trunc ((10 : ℚ)
          * (match difficulty with | .easy => 1 | .medium => 3/2 | .hard => 2)
          * (if time_taken < 5 then (3:ℚ)/2 else if time_taken < 10 then 6/5
             else if time_taken < 20 then 1 else 4/5)
          * min (accuracy_rate * (6/5)) (3/2)
          * min (1 + (current_streak : ℚ) * (1/10)) 2) } := by
  cases difficulty <;>
    (simp only [calculate_xp]
     norm_num [XPCalculation.mk.injEq])

/-- C1: `calculate_xp` returns the all-zero breakdown when `correct` is false;
when `correct` is true it returns base_xp 10, the difficulty multiplier from
easy 1.0 / medium 1.5 / hard 2.0, the speed bonus 1.5 / 1.2 / 1.0 / 0.8 by the
time thresholds 5, 10, 20, accuracy_bonus `min (accuracy_rate * 1.2) 1.5`,
streak_bonus `min (1 + current_streak * 0.1) 2.0`, and
`total_xp = floor (10 * difficulty_multiplier * speed_bonus * accuracy_bonus *
streak_bonus)`; in particular `calculate_xp true hard 3 10 1` has total_xp 72. -/
theorem calculate_xp_spec (difficulty : DifficultyLevel)
    (time_taken current_streak : ℕ) (accuracy_rate : ℚ)
    (h0 : 0 ≤ accuracy_rate) (h1 : accuracy_rate ≤ 1) :
    calculate_xp false difficulty time_taken current_streak accuracy_rate =
      { base_xp := 0, difficulty_multiplier := 0, accuracy_bonus := 0,
        speed_bonus := 0, streak_bonus := 0, total_xp := 0 } ∧
    (calculate_xp true difficulty time_taken current_streak accuracy_rate).base_xp
      = 10 ∧
    (calculate_xp true difficulty time_taken current_streak
        accuracy_rate).difficulty_multiplier
      = (match difficulty with | .easy => 1 | .medium => 3/2 | .hard => 2) ∧
    (calculate_xp true difficulty time_taken current_streak accuracy_rate).speed_bonus
      = (if time_taken < 5 then 3/2 else if time_taken < 10 then 6/5
         else if time_taken < 20 then 1 else 4/5) ∧
    (calculate_xp true difficulty time_taken current_streak accuracy_rate).accuracy_bonus
      = min (accuracy_rate * (6/5)) (3/2) ∧
    (calculate_xp true difficulty time_taken current_streak accuracy_rate).streak_bonus
      = min (1 + (current_streak : ℚ) * (1/10)) 2 ∧
    (calculate_xp true difficulty time_taken current_streak accuracy_rate).total_xp
      = ⌊(10 : ℚ)
          * (match difficulty with | .easy => 1 | .medium => 3/2 | .hard => 2)
          * (if time_taken < 5 then (3:ℚ)/2 else if time_taken < 10 then 6/5
             else if time_taken < 20 then 1 else 4/5)
          * min (accuracy_rate * (6/5)) (3/2)
          * min (1 + (current_streak : ℚ) * (1/10)) 2⌋ ∧
    (calculate_xp true .hard 3 10 1).total_xp = 72 := by
  have h72 : (calculate_xp true .hard 3 10 1).total_xp = 72 := by
    rw [calculate_xp_true_form]
    norm_num [min_def]
    rfl
  refine ⟨rfl, ?_, ?_, ?_, ?_, ?_, ?_, h72⟩
  · rw [calculate_xp_true_form]
  · rw [calculate_xp_true_form]
  · rw [calculate_xp_true_form]
  · rw [calculate_xp_true_form]
  · rw [calculate_xp_true_form]
  · rw [calculate_xp_true_form]
    have hab : (0 : ℚ) ≤ min (accuracy_rate * (6/5)) (3/2) :=
      le_min (by positivity) (by norm_num)
    have hstb : (0 : ℚ) ≤ min (1 + ((current_streak : ℚ) * (1/10))) 2 :=
      le_min (by positivity) (by norm_num)
    refine int_trunc_eq_floor _ ?_
    refine mul_nonneg (mul_nonneg (mul_nonneg (mul_nonneg (by norm_num) ?_) ?_)
      hab) hstb
    · cases difficulty <;> norm_num
    · split_ifs <;> norm_num

/-- C1 witness: the specific XP example from the spec, obtained by applying
`calculate_xp_spec` at accuracy 1. -/
theorem calculate_xp_spec_witness :
    (calculate_xp true .hard 3 10 1).total_xp = 72 :=
  (calculate_xp_spec .hard 3 10 1 (by norm_num) (by norm_num)).2.2.2.2.2.2.2

set_option maxHeartbeats 2000000 in
/-- C2: `_calculate_level` is monotonically non-decreasing on nonnegative XP,
maps 0 to 1, 29999 to 9 and 30000 to 10, returns `max 1 i` at the smallest
index `i` with `xp < thresholds[i]`, and returns 10 (the table length) for
any xp at or above the last threshold. -/
theorem calculate_level_spec :
    (∀ x y : ℤ, 0 ≤ x → x ≤ y → calculate_level x ≤ calculate_level y) ∧
    calculate_level 0 = 1 ∧ calculate_level 29999 = 9 ∧
    calculate_level 30000 = 10 ∧
    (∀ (xp : ℤ) (i : ℕ), i < level_thresholds.length → 0 ≤ xp →
      xp < level_thresholds.getD i 0 →
      (∀ j : ℕ, j < i → level_thresholds.getD j 0 ≤ xp) →
      calculate_level xp = max 1 i) ∧
    (∀ xp : ℤ, 30000 ≤ xp → calculate_level xp = 10) := by
  refine ⟨?_, rfl, rfl, rfl, ?_, ?_⟩
  · intro x y hx hxy
    exact level_scan_mono x y hxy level_thresholds 0
  · intro xp i hi hxp0 hlt hmin
    have hi10 : i < 10 := by simpa [level_thresholds] using hi
    interval_cases i
    · rw [show level_thresholds.getD 0 0 = 0 from rfl] at hlt
      omega
    · rw [show level_thresholds.getD 1 0 = 100 from rfl] at hlt
      have hp := hmin 0 (by omega)
      rw [show level_thresholds.getD 0 0 = 0 from rfl] at hp
      rw [calculate_level_closed]
      split_ifs <;> omega
    · rw [show level_thresholds.getD 2 0 = 250 from rfl] at hlt
      have hp := hmin 1 (by omega)
      rw [show level_thresholds.getD 1 0 = 100 from rfl] at hp
      rw [calculate_level_closed]
      split_ifs <;> omega
    · rw [show level_thresholds.getD 3 0 = 500 from rfl] at hlt
      have hp := hmin 2 (by omega)
      rw [show level_thresholds.getD 2 0 = 250 from rfl] at hp
      rw [calculate_level_closed]
      split_ifs <;> omega
    · rw [show level_thresholds.getD 4 0 = 1000 from rfl] at hlt
      have hp := hmin 3 (by omega)
      rw [show level_thresholds.getD 3 0 = 500 from rfl] at hp
      rw [calculate_level_closed]
      split_ifs <;> omega
    · rw [show level_thresholds.getD 5 0 = 2000 from rfl] at hlt
      have hp := hmin 4 (by omega)
      rw [show level_thresholds.getD 4 0 = 1000 from rfl] at hp
      rw [calculate_level_closed]
      split_ifs <;> omega
    · rw [show level_thresholds.getD 6 0 = 4000 from rfl] at hlt
      have hp := hmin 5 (by omega)
      rw [show level_thresholds.getD 5 0 = 2000 from rfl] at hp
      rw [calculate_level_closed]
      split_ifs <;> omega
    · rw [show level_thresholds.getD 7 0 = 8000 from rfl] at hlt
      have hp := hmin 6 (by omega)
      rw [show level_thresholds.getD 6 0 = 4000 from rfl] at hp
      rw [calculate_level_closed]
      split_ifs <;> omega
    · rw [show level_thresholds.getD 8 0 = 15000 from rfl] at hlt
      have hp := hmin 7 (by omega)
      rw [show level_thresholds.getD 7 0 = 8000 from rfl] at hp
      rw [calculate_level_closed]
      split_ifs <;> omega
    · rw [show level_thresholds.getD 9 0 = 30000 from rfl] at hlt
      have hp := hmin 8 (by omega)
      rw [show level_thresholds.getD 8 0 = 15000 from rfl] at hp
      rw [calculate_level_closed]
      split_ifs <;> omega
  · intro xp h
    rw [calculate_level_closed]
    split_ifs <;> omega

/-- C2 witness: monotonicity and the smallest-index characterisation applied
at concrete XP values. -/
theorem calculate_level_spec_witness :
    calculate_level 150 ≤ calculate_level 5000 ∧ calculate_level 120 = max 1 2 := by
  refine ⟨calculate_level_spec.1 150 5000 (by norm_num) (by norm_num),
          calculate_level_spec.2.2.2.2.1 120 2 (by decide) (by norm_num)
            (by decide) ?_⟩
  intro j hj
  interval_cases j <;> decide

/-- C3: the streak update of `update_user_progress`: no prior study date gives
1 on a correct answer and 0 otherwise; a same-day prior date leaves the streak
unchanged regardless of correctness; a prior date of yesterday increments on a
correct answer and resets to 0 otherwise; a gap of two or more days gives 1 on
a correct answer and 0 otherwise; plus the five concrete examples from the
spec. -/
theorem update_streak_spec (last today : ℤ) (current_streak : ℕ)
    (correct : Bool) :
    update_streak none today current_streak correct
      = (if correct then 1 else 0) ∧
    update_streak (some today) today current_streak correct = current_streak ∧
    (today = last + 1 →
      update_streak (some last) today current_streak correct
        = (if correct then current_streak + 1 else 0)) ∧
    (last + 2 ≤ today →
      update_streak (some last) today current_streak correct
        = (if correct then 1 else 0)) ∧
    update_streak none today 5 true = 1 ∧
    update_streak (some (today - 1)) today 5 true = 6 ∧
    update_streak (some (today - 1)) today 5 false = 0 ∧
    update_streak (some (today - 3)) today 5 true = 1 ∧
    update_streak (some today) today 5 true = 5 := by
  refine ⟨rfl, ?_, ?_, ?_, rfl, ?_, ?_, ?_, ?_⟩
  · simp only [update_streak]
    split_ifs <;> omega
  · intro h
    simp only [update_streak]
    split_ifs <;> omega
  · intro h
    simp only [update_streak]
    split_ifs <;> omega
  · simp only [update_streak]
    split_ifs <;> omega
  · simp only [update_streak, Bool.false_eq_true, if_false]
    split_ifs <;> omega
  · simp only [update_streak]
    split_ifs <;> omega
  · simp only [update_streak]
    split_ifs <;> omega

/-- C3 witness: the yesterday-increment case at a concrete date. -/
theorem update_streak_spec_witness :
    update_streak (some 9) 10 5 true = (if true then 5 + 1 else 0) :=
  (update_streak_spec 9 10 5 true).2.2.1 (by norm_num)

/-- C5: `calculate_next_review_date` returns `now` plus
`min ((1 + performance_score * 2) * (1 + times_reviewed * 0.5)) 30` days: the
interval never exceeds 30 days and is non-decreasing in each argument. -/
theorem calculate_next_review_date_spec :
    (∀ (now performance_score : ℚ) (times_reviewed : ℕ),
      calculate_next_review_date now performance_score times_reviewed =
        now + review_interval_days performance_score times_reviewed) ∧
    (∀ (performance_score : ℚ) (times_reviewed : ℕ),
      review_interval_days performance_score times_reviewed =
        min ((1 + performance_score * 2)
              * (1 + (times_reviewed : ℚ) * (1/2))) 30 ∧
      review_interval_days performance_score times_reviewed ≤ 30) ∧
    (∀ (p₁ p₂ : ℚ) (r : ℕ), 0 ≤ p₁ → p₁ ≤ p₂ →
      review_interval_days p₁ r ≤ review_interval_days p₂ r) ∧
    (∀ (p : ℚ) (r₁ r₂ : ℕ), 0 ≤ p → r₁ ≤ r₂ →
      review_interval_days p r₁ ≤ review_interval_days p r₂) := by
  refine ⟨fun _ _ _ => rfl, ?_, ?_, ?_⟩
  · intro p r
    constructor
    · simp only [review_interval_days]
      rw [show (0.5 : ℚ) = 1/2 from by norm_num, one_mul]
    · exact min_le_right _ _
  · intro p₁ p₂ r hp0 hple
    simp only [review_interval_days]
    refine min_le_min ?_ le_rfl
    have hr : (0 : ℚ) ≤ 1 + (r : ℚ) * 0.5 := by positivity
    nlinarith
  · intro p r₁ r₂ hp0 hrle
    simp only [review_interval_days]
    refine min_le_min ?_ le_rfl
    have hp : (0 : ℚ) ≤ 1 + p * 2 := by positivity
    have hc : (r₁ : ℚ) ≤ (r₂ : ℚ) := by exact_mod_cast hrle
    nlinarith

/-- C5 witness: the cap and both monotonicity directions at concrete inputs. -/
theorem calculate_next_review_date_spec_witness :
    review_interval_days (1/2) 3 ≤ review_interval_days (3/4) 3 ∧
    review_interval_days (1/2) 3 ≤ review_interval_days (1/2) 5 ∧
    review_interval_days (1/2) 100 ≤ 30 :=
  ⟨calculate_next_review_date_spec.2.2.1 (1/2) (3/4) 3 (by norm_num)
      (by norm_num),
   calculate_next_review_date_spec.2.2.2 (1/2) 3 5 (by norm_num) (by norm_num),
   (calculate_next_review_date_spec.2.1 (1/2) 100).2⟩

/-- C9: every submitted answer keeps the flashcard performance score in
[0, 1]: a correct answer sets it to `min (score + 0.1) 1`, an incorrect one to
`max (score - 0.1) 0`, and `times_reviewed` increases by exactly 1 either
way. -/
theorem submit_answer_update_spec (performance_score : ℚ)
    (times_reviewed : ℕ) (correct : Bool)
    (h0 : 0 ≤ performance_score) (h1 : performance_score ≤ 1) :
    (submit_answer_update performance_score times_reviewed true).1
      = min (performance_score + 1/10) 1 ∧
    (submit_answer_update performance_score times_reviewed false).1
      = max (performance_score - 1/10) 0 ∧
    0 ≤ (submit_answer_update performance_score times_reviewed correct).1 ∧
    (submit_answer_update performance_score times_reviewed correct).1 ≤ 1 ∧
    (submit_answer_update performance_score times_reviewed correct).2
      = times_reviewed + 1 := by
  have ht : (submit_answer_update performance_score times_reviewed true).1
      = min (performance_score + 1/10) 1 := by
    simp only [submit_answer_update]
    norm_num
  have hf : (submit_answer_update performance_score times_reviewed false).1
      = max (performance_score - 1/10) 0 := by
    simp only [submit_answer_update]
    norm_num
  refine ⟨ht, hf, ?_, ?_, rfl⟩
  · cases correct
    · rw [hf]
      exact le_max_right _ _
    · rw [ht]
      exact le_min (by linarith) (by norm_num)
  · cases correct
    · rw [hf]
      exact max_le (by linarith) (by norm_num)
    · rw [ht]
      exact min_le_right _ _

/-- C9 witness: the update applied at score 1/2 with a correct answer. -/
theorem submit_answer_update_spec_witness :
    (submit_answer_update (1/2) 3 true).1 = min ((1:ℚ)/2 + 1/10) 1 ∧
    (submit_answer_update (1/2) 3 true).2 = 3 + 1 :=
  ⟨(submit_answer_update_spec (1/2) 3 true (by norm_num) (by norm_num)).1,
   (submit_answer_update_spec (1/2) 3 true (by norm_num) (by norm_num)).2.2.2.2⟩

/-- A row of the `users` table, restricted to the fields the gamification
service reads and writes.  `last_study_date` holds the parsed calendar date
(the stored ISO string is not modelled as text); `none` models a missing
value. -/
structure UserRow where
  id : String
  xp_points : ℤ
  level : ℕ
  current_streak : ℕ
  last_study_date : Option ℤ
deriving DecidableEq, Repr

/-- The dictionary returned by `update_user_progress`. -/
structure ProgressResult where
  xp_earned : ℤ
  total_xp : ℤ
  level : ℕ
  level_up : Bool
  streak : ℕ
  streak_broken : Bool
deriving DecidableEq, Repr

/-- `GamificationService.update_user_progress` (gamification_service.py,
lines 79-135).  The users table is passed and returned explicitly (the
Supabase select with `eq id` is a filter, the update writes every matching
row); `today` is `datetime.now().date()`.  On the `User not found` error no
write happens and the table is returned unchanged. -/
def update_user_progress (users : List UserRow) (user_id : String)
    (xp_earned : ℤ) (correct : Bool) (today : ℤ) :
    Except String ProgressResult × List UserRow :=
  match users.filter (fun u => u.id == user_id) with
  | [] => (Except.error "User not found", users)
  | user :: _ =>
    let current_xp := user.xp_points
    let current_level := user.level
    let current_streak := user.current_streak
    let last_study := user.last_study_date
    let new_xp := current_xp + xp_earned
    let new_level := calculate_level new_xp
    let level_up := decide (current_level < new_level)
    let new_streak := update_streak last_study today current_streak correct
    let new_users := users.map (fun u =>
      if u.id == user_id then
        { u with xp_points := new_xp, level := new_level,
                 current_streak := new_streak, last_study_date := some today }
      else u)
    (Except.ok { xp_earned := xp_earned, total_xp := new_xp, level := new_level,
                 level_up := level_up, streak := new_streak,
                 streak_broken := decide (new_streak < current_streak) },
     new_users)

/-- A sequence of further `update_user_progress` calls on the same day,
threading the users table through (results are discarded, as in repeated
answer submissions). -/
def run_update_calls (user_id : String) (today : ℤ) :
    List (ℤ × Bool) → List UserRow → List UserRow
  | [], users => users
  | (xp, c) :: rest, users =>
    run_update_calls user_id today rest
      (update_user_progress users user_id xp c today).2

/-- C7: after a successful `update_user_progress`, every persisted row for
this user satisfies `level = _calculate_level(xp_points)`, and the returned
`level_up` flag is true exactly when the newly computed level strictly
exceeds the previously stored level. -/
theorem update_user_progress_level_spec (users : List UserRow)
    (user_id : String) (xp_earned : ℤ) (correct : Bool) (today : ℤ)
    (res : ProgressResult) (users' : List UserRow)
    (hok : update_user_progress users user_id xp_earned correct today
      = (Except.ok res, users')) :
    (∀ u' ∈ users', u'.id = user_id →
      u'.level = calculate_level u'.xp_points) ∧
    (∀ u₀ rest, users.filter (fun u => u.id == user_id) = u₀ :: rest →
      res.level_up
        = decide (u₀.level < calculate_level (u₀.xp_points + xp_earned))) := by
  simp only [update_user_progress] at hok
  cases hfilter : users.filter (fun u => u.id == user_id) with
  | nil =>
    rw [hfilter] at hok
    simp at hok
  | cons u₀ rest =>
    rw [hfilter] at hok
    simp only [Prod.mk.injEq, Except.ok.injEq] at hok
    obtain ⟨hres, husers⟩ := hok
    constructor
    · intro u' hu' hid
      rw [← husers] at hu'
      rw [List.mem_map] at hu'
      obtain ⟨u, hu, rfl⟩ := hu'
      by_cases hb : u.id = user_id
      · simp only [hb, beq_self_eq_true, if_true]
      · simp only [beq_iff_eq, hb, if_false] at hid ⊢
    · intro u₁ rest₁ hf₁
      injection hf₁ with h₁ h₂
      subst h₁
      rw [← hres]

/-- C7 witness: a user at 90 XP earning 15 XP crosses the 100-XP threshold;
the persisted row is consistent and `level_up` is reported. -/
theorem update_user_progress_level_spec_witness :
    (∀ u' ∈ [({ id := "u", xp_points := 105, level := 2, current_streak := 1, last_study_date := some 0 } : UserRow)],
      u'.id = "u" → u'.level = calculate_level u'.xp_points) ∧
    (∀ u₀ rest,
      [({ id := "u", xp_points := 90, level := 1, current_streak := 0, last_study_date := none } : UserRow)].filter (fun u => u.id == "u")
        = u₀ :: rest →
      ({ xp_earned := 15, total_xp := 105, level := 2, level_up := true, streak := 1, streak_broken := false } : ProgressResult).level_up
        = decide (u₀.level < calculate_level (u₀.xp_points + 15))) :=
  update_user_progress_level_spec
    [{ id := "u", xp_points := 90, level := 1, current_streak := 0, last_study_date := none }] "u" 15 true 0
    { xp_earned := 15, total_xp := 105, level := 2, level_up := true, streak := 1, streak_broken := false }
    [{ id := "u", xp_points := 105, level := 2, current_streak := 1, last_study_date := some 0 }] rfl

/-- C8: `update_user_progress` returns its `User not found` error exactly
when no row with the requested id exists, and on any error the users table is
returned unchanged (no write happens on the failure path). -/
theorem update_user_progress_not_found_spec (users : List UserRow)
    (user_id : String) (xp_earned : ℤ) (correct : Bool) (today : ℤ) :
    ((update_user_progress users user_id xp_earned correct today).1
        = Except.error "User not found"
      ↔ ∀ u ∈ users, u.id ≠ user_id) ∧
    (∀ e : String,
      (update_user_progress users user_id xp_earned correct today).1
          = Except.error e →
      (update_user_progress users user_id xp_earned correct today).2
        = users) := by
  simp only [update_user_progress]
  cases hfilter : users.filter (fun u => u.id == user_id) with
  | nil =>
    refine ⟨⟨fun _ u hu hid => ?_, fun _ => rfl⟩, fun e _ => rfl⟩
    have hmem : u ∈ users.filter (fun v => v.id == user_id) :=
      List.mem_filter.mpr ⟨hu, by simp [hid]⟩
    rw [hfilter] at hmem
    simp at hmem
  | cons u₀ rest =>
    have hu₀mem : u₀ ∈ users.filter (fun v => v.id == user_id) := by
      rw [hfilter]
      exact List.mem_cons_self _ _
    have h2 := List.mem_filter.mp hu₀mem
    have hid₀ : u₀.id = user_id := by simpa using h2.2
    refine ⟨⟨fun habs => ?_, fun hall => ?_⟩, fun e habs => ?_⟩
    · simp at habs
    · exact absurd hid₀ (hall u₀ h2.1)
    · simp at habs

/-- C8 witness: on an empty users table the call reports `User not found`
and leaves the table unchanged. -/
theorem update_user_progress_not_found_spec_witness :
    ((update_user_progress [] "u" 5 true 0).1
        = Except.error "User not found") ∧
    (update_user_progress [] "u" 5 true 0).2 = [] :=
  ⟨(update_user_progress_not_found_spec [] "u" 5 true 0).1.mpr
      (fun u hu => absurd hu (List.not_mem_nil u)),
   (update_user_progress_not_found_spec [] "u" 5 true 0).2
      "User not found" rfl⟩

/-- Helper for C10: one `update_user_progress` call on the same day preserves
the locked state (streak 0, last study date today) of every row of the
user. -/
theorem update_preserves_locked (users : List UserRow) (user_id : String)
    (xp : ℤ) (c : Bool) (today : ℤ)
    (hinv : ∀ u ∈ users, u.id = user_id →
      u.current_streak = 0 ∧ u.last_study_date = some today) :
    ∀ u' ∈ (update_user_progress users user_id xp c today).2,
      u'.id = user_id →
      u'.current_streak = 0 ∧ u'.last_study_date = some today := by
  simp only [update_user_progress]
  cases hfilter : users.filter (fun u => u.id == user_id) with
  | nil => exact hinv
  | cons u₀ rest =>
    have hu₀mem : u₀ ∈ users.filter (fun v => v.id == user_id) := by
      rw [hfilter]
      exact List.mem_cons_self _ _
    have h2 := List.mem_filter.mp hu₀mem
    have hid₀ : u₀.id = user_id := by simpa using h2.2
    obtain ⟨hs0, hl0⟩ := hinv u₀ h2.1 hid₀
    intro u' hu' hid
    simp only [List.mem_map] at hu'
    obtain ⟨u, hu, rfl⟩ := hu'
    by_cases hb : u.id = user_id
    · simp only [hb, beq_self_eq_true, if_true]
      refine ⟨?_, trivial⟩
      rw [hl0, hs0]
      simp [update_streak]
    · simp only [beq_iff_eq, hb, if_false] at hid ⊢

/-- Helper for C10: any sequence of same-day calls preserves the locked
state. -/
theorem run_update_calls_locked (user_id : String) (today : ℤ) :
    ∀ (calls : List (ℤ × Bool)) (state : List UserRow),
      (∀ u ∈ state, u.id = user_id →
        u.current_streak = 0 ∧ u.last_study_date = some today) →
      ∀ u'' ∈ run_update_calls user_id today calls state, u''.id = user_id →
        u''.current_streak = 0 ∧ u''.last_study_date = some today := by
  intro calls
  induction calls with
  | nil => intro state hs; exact hs
  | cons hd tl ih =>
    intro state hs
    obtain ⟨xp, c⟩ := hd
    simp only [run_update_calls]
    exact ih _ (update_preserves_locked state user_id xp c today hs)

/-- C10: a first call of the day (no prior same-day study) with an incorrect
answer persists streak 0 and last_study_date = today, and every further call
that day — correct or not — leaves the streak at 0. -/
theorem same_day_streak_lockout_spec (users : List UserRow)
    (user_id : String) (xp_earned : ℤ) (today : ℤ) (res : ProgressResult)
    (users' : List UserRow) (u₀ : UserRow) (rest : List UserRow)
    (hfilter : users.filter (fun u => u.id == user_id) = u₀ :: rest)
    (hday : u₀.last_study_date = none ∨
      ∃ d, u₀.last_study_date = some d ∧ d < today)
    (hok : update_user_progress users user_id xp_earned false today
      = (Except.ok res, users')) :
    res.streak = 0 ∧
    (∀ u' ∈ users', u'.id = user_id →
      u'.current_streak = 0 ∧ u'.last_study_date = some today) ∧
    (∀ calls : List (ℤ × Bool),
      ∀ u'' ∈ run_update_calls user_id today calls users', u''.id = user_id →
        u''.current_streak = 0 ∧ u''.last_study_date = some today) := by
  have hstreak0 :
      update_streak u₀.last_study_date today u₀.current_streak false = 0 := by
    rcases hday with h | ⟨d, hd, hlt⟩
    · rw [h]
      rfl
    · rw [hd]
      simp only [update_streak, Bool.false_eq_true, if_false]
      split_ifs <;> omega
  simp only [update_user_progress] at hok
  rw [hfilter] at hok
  simp only [Prod.mk.injEq, Except.ok.injEq] at hok
  obtain ⟨hres, husers⟩ := hok
  have hpart2 : ∀ u' ∈ users', u'.id = user_id →
      u'.current_streak = 0 ∧ u'.last_study_date = some today := by
    intro u' hu' hid
    rw [← husers] at hu'
    rw [List.mem_map] at hu'
    obtain ⟨u, hu, rfl⟩ := hu'
    by_cases hb : u.id = user_id
    · simp only [hb, beq_self_eq_true, if_true]
      exact ⟨hstreak0, trivial⟩
    · simp only [beq_iff_eq, hb, if_false] at hid ⊢
  refine ⟨?_, hpart2, ?_⟩
  · rw [← hres]
    exact hstreak0
  · exact fun calls => run_update_calls_locked user_id today calls users' hpart2

/-- C10 witness: a user with a streak of 5 from yesterday answers wrongly
today; the streak is persisted as 0 and a later correct answer the same day
leaves it at 0. -/
theorem same_day_streak_lockout_spec_witness :
    ({ xp_earned := 0, total_xp := 0, level := 1, level_up := false, streak := 0, streak_broken := true } : ProgressResult).streak = 0 ∧
    (∀ u' ∈ [({ id := "u", xp_points := 0, level := 1, current_streak := 0, last_study_date := some 4 } : UserRow)],
      u'.id = "u" → u'.current_streak = 0 ∧ u'.last_study_date = some 4) ∧
    (∀ calls : List (ℤ × Bool),
      ∀ u'' ∈ run_update_calls "u" 4 calls
        [({ id := "u", xp_points := 0, level := 1, current_streak := 0, last_study_date := some 4 } : UserRow)],
      u''.id = "u" → u''.current_streak = 0 ∧ u''.last_study_date = some 4) :=
  same_day_streak_lockout_spec
    [{ id := "u", xp_points := 0, level := 1, current_streak := 5, last_study_date := some 3 }] "u" 0 4
    { xp_earned := 0, total_xp := 0, level := 1, level_up := false, streak := 0, streak_broken := true }
    [{ id := "u", xp_points := 0, level := 1, current_streak := 0, last_study_date := some 4 }]
    { id := "u", xp_points := 0, level := 1, current_streak := 5, last_study_date := some 3 } [] rfl
    (Or.inr ⟨3, rfl, by decide⟩) rfl

/-- The `BadgeType` enum from `app/models/achievement.py`. -/
inductive BadgeType where
  | fire_scholar
  | knowledge_wizard
  | speed_demon
  | perfectionist
  | first_steps
  | early_bird
  | night_owl
  | comeback_kid
deriving DecidableEq, Repr, Fintype

/-- The string value of each badge enum member. -/
def BadgeType.value : BadgeType → String
  | .fire_scholar => "fire_scholar"
  | .knowledge_wizard => "knowledge_wizard"
  | .speed_demon => "speed_demon"
  | .perfectionist => "perfectionist"
  | .first_steps => "first_steps"
  | .early_bird => "early_bird"
  | .night_owl => "night_owl"
  | .comeback_kid => "comeback_kid"

/-- The iteration order of `self.badge_requirements` (a Python dict iterates
in insertion order; gamification_service.py, lines 11-20). -/
def badge_order : List BadgeType :=
  [.first_steps, .fire_scholar, .knowledge_wizard, .speed_demon,
   .perfectionist, .early_bird, .night_owl, .comeback_kid]

/-- The `requirement` field of `self.badge_requirements` for each badge. -/
def badge_requirement : BadgeType → ℕ
  | .first_steps => 1
  | .fire_scholar => 7
  | .knowledge_wizard => 100
  | .speed_demon => 10
  | .perfectionist => 20
  | .early_bird => 5
  | .night_owl => 5
  | .comeback_kid => 7

/-- A row of the `study_sessions` table, restricted to the fields the badge
rules read.  `created_at` is the stored timestamp: `some t` for a value
`datetime.fromisoformat` accepts (t in seconds, epoch at midnight), `none`
for one it rejects (for example an empty string). -/
structure SessionRow where
  user_id : String
  cards_studied : ℕ
  correct_answers : ℕ
  accuracy_rate : ℚ
  session_duration : ℕ
  created_at : Option ℤ
deriving DecidableEq, Repr

/-- A row of the `achievements` table (the random uuid `id` is external
nondeterminism and is not modelled). -/
structure AchievementRow where
  user_id : String
  badge_type : String
  earned_at : ℤ
  description : String
deriving DecidableEq, Repr

/-- `datetime.fromisoformat` on a stored `created_at`: raises `ValueError`
on a value it cannot parse. -/
def fromisoformat : Option ℤ → Except String ℤ
  | some t => Except.ok t
  | none => Except.error "Invalid isoformat string"

/-- `datetime.time().hour` of a timestamp (epoch aligned to midnight). -/
def hour_of (t : ℤ) : ℤ := t % 86400 / 3600

/-- `(latest - previous).days`: Python `timedelta.days` floors. -/
def days_between (latest previous : ℤ) : ℤ := Int.fdiv (latest - previous) 86400

/-- The early/late-study counting loops (gamification_service.py, lines
196-216): parse each session timestamp, count those whose hour satisfies the
predicate; the first unparseable timestamp raises. -/
def count_study_hours (p : ℤ → Bool) : List SessionRow → Except String ℕ
  | [] => Except.ok 0
  | s :: rest =>
    match fromisoformat s.created_at with
    | Except.error e => Except.error e
    | Except.ok t =>
      match count_study_hours p rest with
      | Except.error e => Except.error e
      | Except.ok n => Except.ok ((if p (hour_of t) then 1 else 0) + n)

/-- Descending `created_at` order used by `.order("created_at", desc=True)`.
An unparseable `created_at` (modelled as `none`, e.g. the empty string) sorts
before every ISO timestamp as text, hence last under descending order. -/
def created_desc_le (a b : SessionRow) : Bool :=
  match a.created_at, b.created_at with
  | some x, some y => y ≤ x
  | some _, none => true
  | none, some _ => false
  | none, none => true

/-- Insertion step of the descending sort. -/
def insert_desc (s : SessionRow) : List SessionRow → List SessionRow
  | [] => [s]
  | t :: rest =>
    if created_desc_le s t then s :: t :: rest else t :: insert_desc s rest

/-- Stable sort by descending `created_at`. -/
def sort_desc : List SessionRow → List SessionRow
  | [] => []
  | s :: rest => insert_desc s (sort_desc rest)

/-- The `eq("user_id", user_id)` filter on the `study_sessions` table. -/
def sessions_for (sessions : List SessionRow) (user_id : String) :
    List SessionRow :=
  sessions.filter (fun s => s.user_id == user_id)

/-- One badge rule of the `check_badge_eligibility` loop body
(gamification_service.py, lines 160-226), evaluated against the sessions
table, the user row and the current time `now`.  Rules that call
`datetime.fromisoformat` can fail. -/
def eval_badge_rule (sessions : List SessionRow) (user : UserRow)
    (user_id : String) (now : ℤ) : BadgeType → Except String Bool
  | .first_steps =>
    Except.ok (decide ((sessions_for sessions user_id).length ≥
      badge_requirement .first_steps))
  | .fire_scholar =>
    Except.ok (decide (user.current_streak ≥ badge_requirement .fire_scholar))
  | .knowledge_wizard =>
    Except.ok (decide
      (((sessions_for sessions user_id).map
          (fun s => s.correct_answers)).sum ≥
        badge_requirement .knowledge_wizard))
  | .speed_demon =>
    let recent := (sessions_for sessions user_id).filter (fun s =>
      match s.created_at with
      | some t => decide (now - 7 * 86400 ≤ t)
      | none => false)
    Except.ok (recent.any (fun s =>
      decide (s.cards_studied ≥ 10) && decide (s.session_duration ≤ 60)))
  | .perfectionist =>
    Except.ok ((sessions_for sessions user_id).any (fun s =>
      decide (s.cards_studied ≥ 20) && decide (s.accuracy_rate = 1)))
  | .early_bird =>
    match count_study_hours (fun h => decide (h < 8))
        (sessions_for sessions user_id) with
    | Except.error e => Except.error e
    | Except.ok c => Except.ok (decide (c ≥ badge_requirement .early_bird))
  | .night_owl =>
    match count_study_hours (fun h => decide (h ≥ 22))
        (sessions_for sessions user_id) with
    | Except.error e => Except.error e
    | Except.ok c => Except.ok (decide (c ≥ badge_requirement .night_owl))
  | .comeback_kid =>
    match (sort_desc (sessions_for sessions user_id)).take 2 with
    | s0 :: s1 :: _ =>
      match fromisoformat s0.created_at with
      | Except.error e => Except.error e
      | Except.ok latest =>
        match fromisoformat s1.created_at with
        | Except.error e => Except.error e
        | Except.ok previous =>
          Except.ok (decide (days_between latest previous ≥
            (badge_requirement .comeback_kid : ℤ)))
    | _ => Except.ok false

/-- The badge description table of `_award_badge` (trailing emoji of the
source strings omitted; no claim depends on the text). -/
def badge_description : BadgeType → String
  | .first_steps => "Answered your first question! Welcome to the journey!"
  | .fire_scholar => "7-day study streak! You are on fire!"
  | .knowledge_wizard => "100 correct answers! True wisdom achieved!"
  | .speed_demon => "10 questions in 60 seconds! Lightning fast!"
  | .perfectionist => "Perfect accuracy on 20+ questions! Flawless!"
  | .early_bird => "5 early morning study sessions! Rise and grind!"
  | .night_owl => "5 late night study sessions! Burning the midnight oil!"
  | .comeback_kid => "Returned after a week break! Welcome back, champion!"

/-- `GamificationService._award_badge` (gamification_service.py, lines
235-258): inserts a new achievement row. -/
def award_badge (achievements : List AchievementRow) (user_id : String)
    (badge_type : BadgeType) (now : ℤ) : List AchievementRow :=
  achievements ++
    [{ user_id := user_id, badge_type := badge_type.value, earned_at := now,
       description := badge_description badge_type }]

/-- The `for badge_type, requirements in self.badge_requirements.items()`
loop of `check_badge_eligibility` (gamification_service.py, lines 154-233):
skips badges already in `existing_badges`, evaluates the rule, awards and
collects newly earned badges.  An exception from a rule propagates (there is
no try/except in the loop). -/
def check_badges_loop (sessions : List SessionRow) (user : UserRow)
    (user_id : String) (now : ℤ) (existing_badges : List String) :
    List BadgeType → List AchievementRow →
    Except String (List BadgeType × List AchievementRow)
  | [], achievements => Except.ok ([], achievements)
  | badge :: rest, achievements =>
    if badge.value ∈ existing_badges then
      check_badges_loop sessions user user_id now existing_badges rest
        achievements
    else
      match eval_badge_rule sessions user user_id now badge with
      | Except.error e => Except.error e
      | Except.ok earned =>
        if earned then
          match check_badges_loop sessions user user_id now existing_badges
              rest (award_badge achievements user_id badge now) with
          | Except.error e => Except.error e
          | Except.ok (more, achievements'') =>
            Except.ok (badge :: more, achievements'')
        else
          check_badges_loop sessions user user_id now existing_badges rest
            achievements

/-- The storage state `check_badge_eligibility` reads and writes. -/
structure DBState where
  users : List UserRow
  sessions : List SessionRow
  achievements : List AchievementRow
deriving DecidableEq, Repr

/-- The `existing_badges` list built at the start of
`check_badge_eligibility` (lines 150-151). -/
def existing_badge_values (achievements : List AchievementRow)
    (user_id : String) : List String :=
  (achievements.filter (fun a => a.user_id == user_id)).map
    (fun a => a.badge_type)

/-- `GamificationService.check_badge_eligibility` (gamification_service.py,
lines 137-233).  `now` stands for the ambient clock (`datetime.now()` /
`datetime.utcnow()`). -/
def check_badge_eligibility (db : DBState) (user_id : String) (now : ℤ) :
    Except String (List BadgeType × DBState) :=
  match db.users.filter (fun u => u.id == user_id) with
  | [] => Except.ok ([], db)
  | user :: _ =>
    match check_badges_loop db.sessions user user_id now
        (existing_badge_values db.achievements user_id) badge_order
        db.achievements with
    | Except.error e => Except.error e
    | Except.ok (new_badges, achievements') =>
      Except.ok (new_badges, { db with achievements := achievements' })

/-- Helper: every badge returned by the loop was absent from the
`existing_badges` list computed before the loop. -/
theorem check_badges_loop_fresh (sessions : List SessionRow) (user : UserRow)
    (user_id : String) (now : ℤ) :
    ∀ (l : List BadgeType) (existing : List String)
      (ach : List AchievementRow) (res : List BadgeType)
      (ach' : List AchievementRow),
      check_badges_loop sessions user user_id now existing l ach
        = Except.ok (res, ach') →
      ∀ b ∈ res, b.value ∉ existing := by
  intro l
  induction l with
  | nil =>
    intro existing ach res ach' h b hb
    simp only [check_badges_loop, Except.ok.injEq, Prod.mk.injEq] at h
    rw [← h.1] at hb
    simp at hb
  | cons badge rest ih =>
    intro existing ach res ach' h b hb
    simp only [check_badges_loop] at h
    by_cases hmem : badge.value ∈ existing
    · rw [if_pos hmem] at h
      exact ih existing ach res ach' h b hb
    · rw [if_neg hmem] at h
      cases heval : eval_badge_rule sessions user user_id now badge with
      | error e =>
        rw [heval] at h
        simp at h
      | ok earned =>
        rw [heval] at h
        cases earned with
        | false =>
          simp only [Bool.false_eq_true, if_false] at h
          exact ih _ _ _ _ h b hb
        | true =>
          simp only [if_true] at h
          cases hloop : check_badges_loop sessions user user_id now existing
              rest (award_badge ach user_id badge now) with
          | error e =>
            rw [hloop] at h
            simp at h
          | ok p =>
            obtain ⟨more, ach''⟩ := p
            rw [hloop] at h
            simp only [Except.ok.injEq, Prod.mk.injEq] at h
            obtain ⟨h1, h2⟩ := h
            rw [← h1] at hb
            rcases List.mem_cons.mp hb with rfl | hb'
            · exact hmem
            · exact ih _ _ _ _ hloop b hb'

/-- Helper: for every badge scanned by the loop, either it was skipped as
already existing, or it was returned as newly earned, or its rule evaluated
to false. -/
theorem check_badges_loop_outcome (sessions : List SessionRow)
    (user : UserRow) (user_id : String) (now : ℤ) :
    ∀ (l : List BadgeType) (existing : List String)
      (ach : List AchievementRow) (res : List BadgeType)
      (ach' : List AchievementRow),
      check_badges_loop sessions user user_id now existing l ach
        = Except.ok (res, ach') →
      ∀ b ∈ l, b.value ∈ existing ∨ b ∈ res ∨
        eval_badge_rule sessions user user_id now b = Except.ok false := by
  intro l
  induction l with
  | nil =>
    intro existing ach res ach' h b hb
    simp at hb
  | cons badge rest ih =>
    intro existing ach res ach' h b hb
    simp only [check_badges_loop] at h
    by_cases hmem : badge.value ∈ existing
    · rw [if_pos hmem] at h
      rcases List.mem_cons.mp hb with rfl | hb'
      · exact Or.inl hmem
      · exact ih existing ach res ach' h b hb'
    · rw [if_neg hmem] at h
      cases heval : eval_badge_rule sessions user user_id now badge with
      | error e =>
        rw [heval] at h
        simp at h
      | ok earned =>
        rw [heval] at h
        cases earned with
        | false =>
          simp only [Bool.false_eq_true, if_false] at h
          rcases List.mem_cons.mp hb with rfl | hb'
          · exact Or.inr (Or.inr heval)
          · exact ih _ _ _ _ h b hb'
        | true =>
          simp only [if_true] at h
          cases hloop : check_badges_loop sessions user user_id now existing
              rest (award_badge ach user_id badge now) with
          | error e =>
            rw [hloop] at h
            simp at h
          | ok p =>
            obtain ⟨more, ach''⟩ := p
            rw [hloop] at h
            simp only [Except.ok.injEq, Prod.mk.injEq] at h
            obtain ⟨h1, h2⟩ := h
            rcases List.mem_cons.mp hb with rfl | hb'
            · exact Or.inr (Or.inl (h1 ▸ List.mem_cons_self _ _))
            · rcases ih _ _ _ _ hloop b hb' with hx | hx | hx
              · exact Or.inl hx
              · exact Or.inr (Or.inl (h1 ▸ List.mem_cons_of_mem _ hx))
              · exact Or.inr (Or.inr hx)

/-- Helper: awarding a badge appends exactly its value to the user's
existing-badge list. -/
theorem existing_badge_values_award (ach : List AchievementRow)
    (user_id : String) (b : BadgeType) (now : ℤ) :
    existing_badge_values (award_badge ach user_id b now) user_id
      = existing_badge_values ach user_id ++ [b.value] := by
  simp [existing_badge_values, award_badge, List.filter_append]

/-- Helper: after a successful loop run, the user's existing-badge list has
grown by exactly the values of the returned badges, in order. -/
theorem check_badges_loop_badges (sessions : List SessionRow)
    (user : UserRow) (user_id : String) (now : ℤ) :
    ∀ (l : List BadgeType) (existing : List String)
      (ach : List AchievementRow) (res : List BadgeType)
      (ach' : List AchievementRow),
      check_badges_loop sessions user user_id now existing l ach
        = Except.ok (res, ach') →
      existing_badge_values ach' user_id
        = existing_badge_values ach user_id ++ res.map BadgeType.value := by
  intro l
  induction l with
  | nil =>
    intro existing ach res ach' h
    simp only [check_badges_loop, Except.ok.injEq, Prod.mk.injEq] at h
    rw [← h.1, ← h.2]
    simp
  | cons badge rest ih =>
    intro existing ach res ach' h
    simp only [check_badges_loop] at h
    by_cases hmem : badge.value ∈ existing
    · rw [if_pos hmem] at h
      exact ih existing ach res ach' h
    · rw [if_neg hmem] at h
      cases heval : eval_badge_rule sessions user user_id now badge with
      | error e =>
        rw [heval] at h
        simp at h
      | ok earned =>
        rw [heval] at h
        cases earned with
        | false =>
          simp only [Bool.false_eq_true, if_false] at h
          exact ih _ _ _ _ h
        | true =>
          simp only [if_true] at h
          cases hloop : check_badges_loop sessions user user_id now existing
              rest (award_badge ach user_id badge now) with
          | error e =>
            rw [hloop] at h
            simp at h
          | ok p =>
            obtain ⟨more, ach''⟩ := p
            rw [hloop] at h
            simp only [Except.ok.injEq, Prod.mk.injEq] at h
            obtain ⟨h1, h2⟩ := h
            rw [← h1, ← h2]
            rw [ih _ _ _ _ hloop, existing_badge_values_award]
            simp

/-- Helper: the returned badge list is a sublist of the scanned badge
list. -/
theorem check_badges_loop_sublist (sessions : List SessionRow)
    (user : UserRow) (user_id : String) (now : ℤ) :
    ∀ (l : List BadgeType) (existing : List String)
      (ach : List AchievementRow) (res : List BadgeType)
      (ach' : List AchievementRow),
      check_badges_loop sessions user user_id now existing l ach
        = Except.ok (res, ach') →
      res.Sublist l := by
  intro l
  induction l with
  | nil =>
    intro existing ach res ach' h
    simp only [check_badges_loop, Except.ok.injEq, Prod.mk.injEq] at h
    rw [← h.1]
  | cons badge rest ih =>
    intro existing ach res ach' h
    simp only [check_badges_loop] at h
    by_cases hmem : badge.value ∈ existing
    · rw [if_pos hmem] at h
      exact (ih existing ach res ach' h).cons badge
    · rw [if_neg hmem] at h
      cases heval : eval_badge_rule sessions user user_id now badge with
      | error e =>
        rw [heval] at h
        simp at h
      | ok earned =>
        rw [heval] at h
        cases earned with
        | false =>
          simp only [Bool.false_eq_true, if_false] at h
          exact (ih _ _ _ _ h).cons badge
        | true =>
          simp only [if_true] at h
          cases hloop : check_badges_loop sessions user user_id now existing
              rest (award_badge ach user_id badge now) with
          | error e =>
            rw [hloop] at h
            simp at h
          | ok p =>
            obtain ⟨more, ach''⟩ := p
            rw [hloop] at h
            simp only [Except.ok.injEq, Prod.mk.injEq] at h
            rw [← h.1]
            exact (ih _ _ _ _ hloop).cons₂ badge

/-- Helper: when every badge in the list is either already present or has a
rule evaluating to false, the loop awards nothing and leaves the
achievements unchanged. -/
theorem check_badges_loop_all_stale (sessions : List SessionRow)
    (user : UserRow) (user_id : String) (now : ℤ) :
    ∀ (l : List BadgeType) (existing : List String)
      (ach : List AchievementRow),
      (∀ b ∈ l, b.value ∈ existing ∨
        eval_badge_rule sessions user user_id now b = Except.ok false) →
      check_badges_loop sessions user user_id now existing l ach
        = Except.ok ([], ach) := by
  intro l
  induction l with
  | nil => intro existing ach hall; rfl
  | cons badge rest ih =>
    intro existing ach hall
    simp only [check_badges_loop]
    by_cases hmem : badge.value ∈ existing
    · rw [if_pos hmem]
      exact ih existing ach (fun b hb => hall b (List.mem_cons_of_mem _ hb))
    · rw [if_neg hmem]
      rcases hall badge (List.mem_cons_self _ _) with h | h
      · exact absurd h hmem
      · rw [h]
        simp only [Bool.false_eq_true, if_false]
        exact ih existing ach (fun b hb => hall b (List.mem_cons_of_mem _ hb))

/-- Helper: badge enum values are pairwise distinct strings. -/
theorem badge_value_injective :
    ∀ a b : BadgeType, a.value = b.value → a = b := by
  decide

/-- C4: a successful `check_badge_eligibility` call never returns or awards a
badge type already present in the user's achievements (the achievements for
this user grow by exactly the returned badge values, so a per-user at-most-
once-per-badge store stays that way), and an immediate second call with
unchanged user record and session history returns the empty list. -/
theorem check_badge_eligibility_spec (db : DBState) (user_id : String)
    (now : ℤ) (new_badges : List BadgeType) (db' : DBState)
    (hok : check_badge_eligibility db user_id now
      = Except.ok (new_badges, db')) :
    (∀ b ∈ new_badges,
      b.value ∉ existing_badge_values db.achievements user_id) ∧
    existing_badge_values db'.achievements user_id
      = existing_badge_values db.achievements user_id
        ++ new_badges.map BadgeType.value ∧
    ((existing_badge_values db.achievements user_id).Nodup →
      (existing_badge_values db'.achievements user_id).Nodup) ∧
    check_badge_eligibility db' user_id now = Except.ok ([], db') := by
  simp only [check_badge_eligibility] at hok
  cases hfilter : db.users.filter (fun u => u.id == user_id) with
  | nil =>
    rw [hfilter] at hok
    simp only [Except.ok.injEq, Prod.mk.injEq] at hok
    obtain ⟨h1, h2⟩ := hok
    subst h1
    subst h2
    refine ⟨by simp, by simp, fun h => h, ?_⟩
    simp only [check_badge_eligibility]
    rw [hfilter]
  | cons user urest =>
    rw [hfilter] at hok
    simp only [] at hok
    cases hloop : check_badges_loop db.sessions user user_id now
        (existing_badge_values db.achievements user_id) badge_order
        db.achievements with
    | error e =>
      rw [hloop] at hok
      simp at hok
    | ok p =>
      obtain ⟨res, ach'⟩ := p
      rw [hloop] at hok
      simp only [Except.ok.injEq, Prod.mk.injEq] at hok
      obtain ⟨h1, h2⟩ := hok
      subst h1
      subst h2
      have hfresh := check_badges_loop_fresh db.sessions user user_id now
        badge_order _ db.achievements res ach' hloop
      have hebv := check_badges_loop_badges db.sessions user user_id now
        badge_order _ db.achievements res ach' hloop
      have hout := check_badges_loop_outcome db.sessions user user_id now
        badge_order _ db.achievements res ach' hloop
      have hsub := check_badges_loop_sublist db.sessions user user_id now
        badge_order _ db.achievements res ach' hloop
      refine ⟨hfresh, hebv, ?_, ?_⟩
      · intro hnd
        rw [hebv]
        refine List.Nodup.append hnd ?_ ?_
        · exact List.Nodup.map (fun a b => badge_value_injective a b)
            (hsub.nodup (by decide))
        · intro x hx hx'
          rw [List.mem_map] at hx'
          obtain ⟨b, hb, rfl⟩ := hx'
          exact hfresh b hb hx
      · simp only [check_badge_eligibility]
        rw [hfilter]
        simp only []
        rw [check_badges_loop_all_stale db.sessions user user_id now
          badge_order _ ach' ?_]
        intro b hb
        rcases hout b hb with hx | hx | hx
        · left
          rw [hebv]
          exact List.mem_append_left _ hx
        · left
          rw [hebv]
          exact List.mem_append_right _ (List.mem_map_of_mem _ hx)
        · right
          exact hx

/-- C4 witness: a user with a 7-day streak and no badges earns exactly
`fire_scholar`; the achievements grow by that one value and an immediate
second call returns the empty list. -/
theorem check_badge_eligibility_spec_witness :
    (∀ b ∈ [BadgeType.fire_scholar],
      b.value ∉ existing_badge_values ([] : List AchievementRow) "w") ∧
    existing_badge_values [({ user_id := "w", badge_type := "fire_scholar", earned_at := 0, description := badge_description .fire_scholar } : AchievementRow)] "w"
      = existing_badge_values ([] : List AchievementRow) "w"
        ++ [BadgeType.fire_scholar].map BadgeType.value ∧
    ((existing_badge_values ([] : List AchievementRow) "w").Nodup →
      (existing_badge_values [({ user_id := "w", badge_type := "fire_scholar", earned_at := 0, description := badge_description .fire_scholar } : AchievementRow)] "w").Nodup) ∧
    check_badge_eligibility
      { users := [{ id := "w", xp_points := 0, level := 1, current_streak := 7, last_study_date := none }],
        sessions := [],
        achievements := [{ user_id := "w", badge_type := "fire_scholar", earned_at := 0, description := badge_description .fire_scholar }] } "w" 0
      = Except.ok ([],
        { users := [{ id := "w", xp_points := 0, level := 1, current_streak := 7, last_study_date := none }],
          sessions := [],
          achievements := [{ user_id := "w", badge_type := "fire_scholar", earned_at := 0, description := badge_description .fire_scholar }] }) :=
  check_badge_eligibility_spec
    { users := [{ id := "w", xp_points := 0, level := 1, current_streak := 7, last_study_date := none }],
      sessions := [], achievements := [] } "w" 0
    [BadgeType.fire_scholar]
    { users := [{ id := "w", xp_points := 0, level := 1, current_streak := 7, last_study_date := none }],
      sessions := [],
      achievements := [{ user_id := "w", badge_type := "fire_scholar", earned_at := 0, description := badge_description .fire_scholar }] }
    rfl

/-- A session at hour 23 of day 100 (parseable timestamp). -/
def c6_session1 : SessionRow :=
  { user_id := "u1", cards_studied := 0, correct_answers := 0, accuracy_rate := 0, session_duration := 999, created_at := some (100 * 86400 + 82800) }

/-- A session at hour 23 of day 80, twenty days earlier (parseable). -/
def c6_session2 : SessionRow :=
  { user_id := "u1", cards_studied := 0, correct_answers := 0, accuracy_rate := 0, session_duration := 999, created_at := some (80 * 86400 + 82800) }

/-- A session whose stored `created_at` `datetime.fromisoformat` rejects. -/
def c6_session3 : SessionRow :=
  { user_id := "u1", cards_studied := 0, correct_answers := 0, accuracy_rate := 0, session_duration := 999, created_at := none }

/-- The user of the badge-failure scenario. -/
def c6_user : UserRow :=
  { id := "u1", xp_points := 0, level := 1, current_streak := 0, last_study_date := none }

/-- Storage state: one user, two parseable sessions twenty days apart plus
one with an unparseable timestamp, no achievements yet. -/
def c6_db : DBState :=
  { users := [c6_user],
    sessions := [c6_session1, c6_session2, c6_session3],
    achievements := [] }

/-- C6 counterexample: with one unparseable session timestamp the
`early_bird` rule raises, the whole `check_badge_eligibility` call errors
and returns no list at all — even though the `comeback_kid` requirement
(a twenty-day gap between the two most recent parseable sessions) is met,
so that badge is neither awarded nor reported. -/
theorem check_badge_failure_counterexample :
    check_badge_eligibility c6_db "u1" (101 * 86400)
      = Except.error "Invalid isoformat string" ∧
    eval_badge_rule c6_db.sessions c6_user "u1" (101 * 86400) .comeback_kid
      = Except.ok true :=
  ⟨rfl, rfl⟩

/-- C6 amended: a failure while evaluating one badge rule aborts the whole
badge loop — the error propagates to the caller, and no badge after the
failing one is evaluated or awarded, whatever its rule would have said. -/
theorem badge_rule_failure_aborts (sessions : List SessionRow)
    (user : UserRow) (user_id : String) (now : ℤ)
    (existing : List String) (ach : List AchievementRow)
    (badge : BadgeType) (rest : List BadgeType) (e : String)
    (hnot : badge.value ∉ existing)
    (herr : eval_badge_rule sessions user user_id now badge
      = Except.error e) :
    check_badges_loop sessions user user_id now existing (badge :: rest) ach
      = Except.error e := by
  simp only [check_badges_loop]
  rw [if_neg hnot, herr]

/-- C6 amended witness: in the concrete failure scenario the loop tail after
the failing `early_bird` rule is never reached. -/
theorem badge_rule_failure_aborts_witness :
    check_badges_loop c6_db.sessions c6_user "u1" (101 * 86400) []
      [.early_bird, .night_owl, .comeback_kid] []
      = Except.error "Invalid isoformat string" :=
  badge_rule_failure_aborts c6_db.sessions c6_user "u1" (101 * 86400) [] []
    .early_bird [.night_owl, .comeback_kid] "Invalid isoformat string"
    (by simp) rfl

end StudyBuddy
